import Mathlib

/-!
# Verification of the `refrepath` reference-repathing utility

Shallow embedding of `src/refrepath/refrepath/core.py`.

The Maya host API (`maya.cmds`) and Python's `re` module are external
collaborators; they are modelled as an explicit environment record
(`MayaEnv`) of pure functions: the list returned by
`cmds.ls(type="reference", long=True)`, the result of
`cmds.referenceQuery(..., filename=True, withoutCopyNumber=True)` (with
`none` standing for the call raising), disk existence (`Path.exists`),
the outcome of `cmds.file(..., loadReference=...)` (`false` = the call
raises), the outcome of `cmds.file(..., open=True, ...)`, and
`re.compile(search).match(s)` returning `group(0)` (which, for `re.match`,
is always a prefix of `s`).

`pathlib.Path` objects are modelled as raw strings (path normalization
performed by `pathlib` is not modelled; none of the verified properties
depends on it). Python exceptions become an `Except` error type; host
side effects (reload calls) are logged explicitly in the return value.
-/


/-! ## Definitions translated from `core.py` and concrete test environments -/


/-- `startsWithL pat s` is true iff `pat` is a leading segment of `s`
(the character lists compared element by element). -/
def startsWithL : List Char → List Char → Bool
  | [], _ => true
  | _ :: _, [] => false
  | a :: as, b :: bs => a == b && startsWithL as bs

/-- `containsL pat s`: does `pat` occur as a contiguous segment anywhere in
`s`?  This models Python's `in` operator on strings. -/
def containsL (pat : List Char) : List Char → Bool
  | [] => startsWithL pat []
  | c :: rest => startsWithL pat (c :: rest) || containsL pat rest

/-- Scanner for `listReplace`: walk the string left to right; while
`skip > 0` we are inside an occurrence already replaced, so drop the
character; at `skip = 0`, if the (nonempty) pattern starts here, emit the
replacement and skip the rest of the occurrence, else keep the character.
Models the left-to-right, non-overlapping scan of Python's `str.replace`. -/
def replaceAux (pat rep : List Char) : List Char → Nat → List Char
  | [], _ => []
  | _ :: rest, Nat.succ skip => replaceAux pat rep rest skip
  | c :: rest, 0 =>
    if pat ≠ [] ∧ startsWithL pat (c :: rest) = true then
      rep ++ replaceAux pat rep rest (pat.length - 1)
    else
      c :: replaceAux pat rep rest 0

/-- Replace every leftmost non-overlapping occurrence of the nonempty
pattern `pat` in `s` by `rep`. -/
def listReplace (pat rep s : List Char) : List Char :=
  replaceAux pat rep s 0

/-- Python's `s.replace("", rep)` inserts `rep` before every character and
at the end of the string. -/
def listReplaceEmpty (rep : List Char) : List Char → List Char
  | [] => rep
  | c :: rest => rep ++ c :: listReplaceEmpty rep rest

/-- Python's `str.replace`: `pyReplace s old new` returns a copy of `s`
with all occurrences of substring `old` replaced by `new`. -/
def pyReplace (s pat rep : String) : String :=
  if pat.data = [] then ⟨listReplaceEmpty rep.data s.data⟩
  else ⟨listReplace pat.data rep.data s.data⟩

/-- Python's `in` on strings. -/
def strContains (s pat : String) : Bool :=
  containsL pat.data s.data

/-- Spec-side notion: `pat` occurs as a contiguous substring of `s`. -/
def ContainsSubstring (pat s : List Char) : Prop :=
  ∃ pre post, s = pre ++ pat ++ post

/-- The host environment: the Maya API surface used by `core.py`, plus
Python's regex matcher, as pure functions. -/
structure MayaEnv where
  /-- `cmds.ls(type="reference", long=True)`. -/
  lsReferences : List String
  /-- `cmds.referenceQuery(node, filename=True, withoutCopyNumber=True)`;
  `none` models the call raising (some references have no filepath). -/
  referenceQuery : String → Option String
  /-- `Path.exists` on disk. -/
  pathExists : String → Bool
  /-- `cmds.file(path, loadReference=node, loadReferenceDepth="none")`;
  `false` models the call raising. -/
  fileLoadReference : String → String → Bool
  /-- `cmds.file(path, open=True, force=True, ...)`; `false` models the
  call raising. -/
  fileOpen : String → Bool
  /-- `re.compile(pat).match(s)`: `some m` is `group(0)` of the match
  (always a prefix of `s`), `none` is a failed match. -/
  regexMatch : String → String → Option String

/-- `re.match` for a pattern with no regex metacharacters: matches iff the
pattern is literally a prefix of the string, and `group(0)` is the
pattern itself.  Used to instantiate `MayaEnv.regexMatch` concretely. -/
def literalMatch (pat s : String) : Option String :=
  if startsWithL pat.data s.data then some pat else none

/-- Python exceptions raised by `repath_reference`. -/
inductive RepathError where
  /-- `cmds.referenceQuery` itself raised. -/
  | hostQueryError (node : String)
  /-- `ValueError: Cannot retrieve reference file path on <node>` (empty path). -/
  | missingPath (node : String)
  /-- `ValueError: Search pattern doesn't match anything`. -/
  | patternMismatch (search : String) (path : String)
  /-- `FileNotFoundError: New path computed doesn't exist on disk`. -/
  | pathNotFound (path : String)
deriving DecidableEq, Repr

/-- `class RepathedReference` from `core.py`. -/
structure RepathedReference where
  node_name : String
  previous_path : String
  new_path : String
deriving DecidableEq, Repr

/-- `RepathedReference.was_updated`: true if the new path was different
from the previous path (`not self.previous_path == self.new_path`). -/
def RepathedReference.was_updated (r : RepathedReference) : Bool :=
  !(r.previous_path == r.new_path)

/-- A `cmds.file(new_path, loadReference=node, ...)` call issued by
`repath_reference`, with whether the host call succeeded. -/
structure ReloadCall where
  path : String
  node : String
  succeeded : Bool
deriving DecidableEq, Repr

/-- `is_ref_valid` (inner function of `get_references`). -/
def is_ref_valid (ref_name : String) : Bool :=
  !(strContains ref_name "sharedReferenceNode")
    && !(strContains ref_name "_UNKNOWN_REF_NODE_")

/-- `get_references`: retrieve all the reference nodes from the scene,
filtering out invalid ones. -/
def get_references (env : MayaEnv) : List String :=
  (env.lsReferences).filter is_ref_valid

/-- `repath_reference(node_name, search, replace)`: edit the reference's
path per the search/replace rule.  Returns the optional
`RepathedReference` (Python `None` = `none`) together with the log of
reload calls issued; raising is `Except.error`. -/
def repath_reference (env : MayaEnv) (node_name search replace : String) :
    Except RepathError (Option RepathedReference × List ReloadCall) :=
  match env.referenceQuery node_name with
  | none => .error (.hostQueryError node_name)
  | some current_path =>
    if current_path = "" then .error (.missingPath node_name)
    else
      match env.regexMatch search current_path with
      | none => .error (.patternMismatch search current_path)
      | some actual_search =>
        let new_path := pyReplace current_path actual_search replace
        if env.pathExists new_path = true then
          let repathed_reference : RepathedReference :=
            ⟨node_name, current_path, new_path⟩
          if repathed_reference.was_updated = true then
            -- try/except around the host reload: a failure is logged and
            -- ignored, the result is returned regardless.
            let reload_ok := env.fileLoadReference new_path node_name
            .ok (some repathed_reference, [⟨new_path, node_name, reload_ok⟩])
          else
            .ok (none, [])
        else
          .error (.pathNotFound new_path)

/-- The outcome of a batch run: the returned list of `RepathedReference`,
plus instrumentation of the side effects (which references
`repath_reference` was invoked on, and the reload calls issued). -/
structure BatchResult where
  repathed : List RepathedReference
  attempted : List String
  reloads : List ReloadCall
deriving DecidableEq, Repr

/-- Body of the `for` loop of `open_and_repath_references`: run
`repath_reference` on one reference, catching any exception (logged,
result treated as `None`), and append a truthy result to the list. -/
def batch_step (env : MayaEnv) (search replace : String)
    (acc : BatchResult) (scene_reference : String) : BatchResult :=
  match repath_reference env scene_reference search replace with
  | .error _ =>
    { acc with attempted := acc.attempted ++ [scene_reference] }
  | .ok (none, calls) =>
    { acc with attempted := acc.attempted ++ [scene_reference],
               reloads := acc.reloads ++ calls }
  | .ok (some r, calls) =>
    { repathed := acc.repathed ++ [r],
      attempted := acc.attempted ++ [scene_reference],
      reloads := acc.reloads ++ calls }

/-- `open_and_repath_references(maya_file_path, search, replace)`: open the
scene (open errors are caught and logged), enumerate the references and
repath each one, isolating per-reference failures. -/
def open_and_repath_references (env : MayaEnv)
    (maya_file_path search replace : String) : BatchResult :=
  -- try/except around the host open call: a failure is logged and ignored.
  let _open_ok := env.fileOpen maya_file_path
  let scene_reference_list := get_references env
  if scene_reference_list.isEmpty then
    { repathed := [], attempted := [], reloads := [] }
  else
    scene_reference_list.foldl (batch_step env search replace)
      { repathed := [], attempted := [], reloads := [] }

/-- The result collected for one reference by the batch loop: `some r`
exactly when `repath_reference` returned a truthy `RepathedReference`. -/
def repath_collect (env : MayaEnv) (search replace : String)
    (ref : String) : Option RepathedReference :=
  match repath_reference env ref search replace with
  | .ok (some r, _) => some r
  | _ => none

/-- The reload calls issued while repathing one reference. -/
def repath_calls (env : MayaEnv) (search replace : String)
    (ref : String) : List ReloadCall :=
  match repath_reference env ref search replace with
  | .ok (_, calls) => calls
  | .error _ => []

/-- Spec-side candidate construction of claim C3: replace only the matched
leading substring, leaving the rest of the path unchanged. -/
def replaceLeadOnly (s matched rep : String) : String :=
  ⟨rep.data ++ s.data.drop matched.data.length⟩

/-- Concrete host environment: one reference at `/a/b/a/c`, everything exists on disk. -/
def envA : MayaEnv :=
  { lsReferences := ["refA"]
    referenceQuery := fun n => if n = "refA" then some "/a/b/a/c" else none
    pathExists := fun _ => true
    fileLoadReference := fun _ _ => true
    fileOpen := fun _ => true
    regexMatch := literalMatch }

/-- Concrete host environment: one reference at `/a/b`, nothing exists on disk. -/
def envC : MayaEnv :=
  { lsReferences := ["refC"]
    referenceQuery := fun n => if n = "refC" then some "/a/b" else none
    pathExists := fun _ => false
    fileLoadReference := fun _ _ => true
    fileOpen := fun _ => true
    regexMatch := literalMatch }

/-- Concrete host environment: one reference at `/old/a`, everything exists on disk. -/
def envB1 : MayaEnv :=
  { lsReferences := ["refB"]
    referenceQuery := fun n => if n = "refB" then some "/old/a" else none
    pathExists := fun _ => true
    fileLoadReference := fun _ _ => true
    fileOpen := fun _ => true
    regexMatch := literalMatch }

/-- State of `envB1` after the recorded path of `refB` was updated to `/new/a`. -/
def envB2 : MayaEnv :=
  { envB1 with referenceQuery := fun n => if n = "refB" then some "/new/a" else none }

/-- Matcher behaving like the regex `/(old|new)` on the two paths of interest. -/
def stableMatch : String → String → Option String := fun _ p =>
  if p = "/old/a" then some "/old"
  else if p = "/new/a" then some "/new"
  else none

/-- Concrete host environment for the stable-rule idempotence witness, before the first run. -/
def envD1 : MayaEnv :=
  { lsReferences := ["refD"]
    referenceQuery := fun n => if n = "refD" then some "/old/a" else none
    pathExists := fun _ => true
    fileLoadReference := fun _ _ => true
    fileOpen := fun _ => true
    regexMatch := stableMatch }

/-- State of `envD1` after the recorded path of `refD` was updated to `/new/a`. -/
def envD2 : MayaEnv :=
  { envD1 with referenceQuery := fun n => if n = "refD" then some "/new/a" else none }

/-- Concrete host environment with one matching and one mismatching reference. -/
def envE : MayaEnv :=
  { lsReferences := ["refOk", "refBad"]
    referenceQuery := fun n =>
      if n = "refOk" then some "/old/a"
      else if n = "refBad" then some "/elsewhere/b" else none
    pathExists := fun _ => true
    fileLoadReference := fun _ _ => true
    fileOpen := fun _ => true
    regexMatch := literalMatch }

/-- Concrete host environment whose reload call always fails. -/
def envF : MayaEnv :=
  { lsReferences := ["refF"]
    referenceQuery := fun n => if n = "refF" then some "/old/a" else none
    pathExists := fun _ => true
    fileLoadReference := fun _ _ => false
    fileOpen := fun _ => true
    regexMatch := literalMatch }

/-- Concrete host environment whose listing holds only pseudo-nodes. -/
def envG : MayaEnv :=
  { lsReferences := ["sharedReferenceNode1", "scene_UNKNOWN_REF_NODE_x"]
    referenceQuery := fun _ => none
    pathExists := fun _ => true
    fileLoadReference := fun _ _ => true
    fileOpen := fun _ => true
    regexMatch := literalMatch }

/-- Concrete host environment whose listing holds a good node and two nodes strictly containing the excluded substrings. -/
def envH : MayaEnv :=
  { lsReferences := ["goodRef", "mysharedReferenceNodeCopy", "a_UNKNOWN_REF_NODE_b"]
    referenceQuery := fun _ => none
    pathExists := fun _ => true
    fileLoadReference := fun _ _ => true
    fileOpen := fun _ => true
    regexMatch := literalMatch }


/-! ## Helper lemmas -/


/-- Characterization of `startsWithL`: a Boolean leading-segment test succeeds exactly when the string decomposes as the pattern followed by a remainder. -/
theorem startsWithL_iff (pat s : List Char) :
    startsWithL pat s = true ↔ ∃ t, s = pat ++ t := by
  induction pat generalizing s with
  | nil => simp [startsWithL]
  | cons a as ih =>
    cases s with
    | nil => simp [startsWithL]
    | cons b bs =>
      simp only [startsWithL, Bool.and_eq_true, beq_iff_eq, ih]
      constructor
      · rintro ⟨rfl, t, rfl⟩; exact ⟨t, rfl⟩
      · rintro ⟨t, h⟩
        injection h with h1 h2
        exact ⟨h1.symm, t, h2⟩

/-- Characterization of `containsL`: it decides the spec-side substring-occurrence predicate `ContainsSubstring`. -/
theorem containsL_iff (pat s : List Char) :
    containsL pat s = true ↔ ContainsSubstring pat s := by
  induction s with
  | nil =>
    simp only [containsL, startsWithL_iff, ContainsSubstring]
    constructor
    · rintro ⟨t, h⟩
      exact ⟨[], t, by simpa using h⟩
    · rintro ⟨pre, post, h⟩
      exact ⟨post ++ pre, by simp at h ⊢; tauto⟩
  | cons c rest ih =>
    simp only [containsL, Bool.or_eq_true, startsWithL_iff, ih, ContainsSubstring]
    constructor
    · rintro (⟨t, h⟩ | ⟨pre, post, h⟩)
      · exact ⟨[], t, by simpa using h⟩
      · exact ⟨c :: pre, post, by simp [h]⟩
    · rintro ⟨pre, post, h⟩
      cases pre with
      | nil => exact Or.inl ⟨post, by simpa using h⟩
      | cons p ps =>
        right
        injection h with h1 h2
        exact ⟨ps, post, h2⟩

/-- Skipping exactly the length of a just-consumed occurrence resumes the scan at the remainder. -/
theorem replaceAux_skip (pat rep : List Char) (x t : List Char) :
    replaceAux pat rep (x ++ t) x.length = replaceAux pat rep t 0 := by
  induction x with
  | nil => simp
  | cons c cs ih => simpa [replaceAux] using ih

/-- When the nonempty pattern leads the string, `listReplace` emits the replacement and continues on the remainder (the leftmost-occurrence step of Python `str.replace`). -/
theorem listReplace_step (pat rep t : List Char) (h : pat ≠ []) :
    listReplace pat rep (pat ++ t) = rep ++ listReplace pat rep t := by
  cases pat with
  | nil => exact absurd rfl h
  | cons p ps =>
    unfold listReplace
    rw [List.cons_append, replaceAux]
    have hsw : startsWithL (p :: ps) ((p :: ps) ++ t) = true :=
      (startsWithL_iff _ _).mpr ⟨t, rfl⟩
    rw [if_pos ⟨h, by rw [List.cons_append] at hsw; exact hsw⟩]
    have : (p :: ps).length - 1 = ps.length := by simp
    rw [this, replaceAux_skip]

/-- Strings with no occurrence of the pattern are left unchanged by `listReplace`. -/
theorem listReplace_of_not_contains (pat rep s : List Char)
    (h : containsL pat s = false) : listReplace pat rep s = s := by
  induction s with
  | nil => cases pat <;> simp [listReplace, replaceAux]
  | cons c rest ih =>
    simp only [containsL, Bool.or_eq_false_iff] at h
    unfold listReplace replaceAux
    rw [if_neg (by rintro ⟨-, hsw⟩; rw [h.1] at hsw; exact Bool.false_ne_true hsw)]
    have := ih h.2
    unfold listReplace at this
    rw [this]

/-- Run of `repath_reference` in which the regex match fails: the `patternMismatch` error is raised. -/
theorem repath_mismatch (env : MayaEnv) (n s rep p : String)
    (hq : env.referenceQuery n = some p) (hp : p ≠ "")
    (hm : env.regexMatch s p = none) :
    repath_reference env n s rep = .error (.patternMismatch s p) := by
  unfold repath_reference
  rw [hq]; dsimp only; rw [if_neg hp, hm]

/-- Run of `repath_reference` in which the computed candidate path does not exist on disk: the `pathNotFound` error is raised. -/
theorem repath_notfound (env : MayaEnv) (n s rep p m : String)
    (hq : env.referenceQuery n = some p) (hp : p ≠ "")
    (hm : env.regexMatch s p = some m)
    (hex : env.pathExists (pyReplace p m rep) = false) :
    repath_reference env n s rep = .error (.pathNotFound (pyReplace p m rep)) := by
  unfold repath_reference
  rw [hq]; dsimp only; rw [if_neg hp, hm]; dsimp only
  simp [hex]

/-- Run of `repath_reference` in which the candidate path exists and equals the current path: the no-op signal `none` is returned and no reload call is issued. -/
theorem repath_noop (env : MayaEnv) (n s rep p m : String)
    (hq : env.referenceQuery n = some p) (hp : p ≠ "")
    (hm : env.regexMatch s p = some m)
    (hex : env.pathExists (pyReplace p m rep) = true)
    (heq : pyReplace p m rep = p) :
    repath_reference env n s rep = .ok (none, []) := by
  unfold repath_reference
  rw [hq]; dsimp only; rw [if_neg hp, hm]; dsimp only
  simp only [hex, if_pos rfl]
  have hwu : (⟨n, p, pyReplace p m rep⟩ : RepathedReference).was_updated = false := by
    simp [RepathedReference.was_updated, heq]
  simp [hwu]

/-- Run of `repath_reference` in which the candidate path exists and differs from the current path: the result object is returned and exactly one reload call is issued. -/
theorem repath_updates (env : MayaEnv) (n s rep p m : String)
    (hq : env.referenceQuery n = some p) (hp : p ≠ "")
    (hm : env.regexMatch s p = some m)
    (hex : env.pathExists (pyReplace p m rep) = true)
    (hne : pyReplace p m rep ≠ p) :
    repath_reference env n s rep =
      .ok (some ⟨n, p, pyReplace p m rep⟩,
           [⟨pyReplace p m rep, n, env.fileLoadReference (pyReplace p m rep) n⟩]) := by
  unfold repath_reference
  rw [hq]; dsimp only; rw [if_neg hp, hm]; dsimp only
  have hwu : (⟨n, p, pyReplace p m rep⟩ : RepathedReference).was_updated = true := by
    simp [RepathedReference.was_updated]
    exact fun hh => hne hh.symm
  simp [hex, hwu]

/-- Inversion of a normally-returning run of `repath_reference`: it pins down the queried path, the regex match, the existence check, and whether the run was a no-op or an update. -/
theorem repath_ok_inv (env : MayaEnv) (n s rep : String)
    (o : Option RepathedReference) (calls : List ReloadCall)
    (h : repath_reference env n s rep = .ok (o, calls)) :
    ∃ p m, env.referenceQuery n = some p ∧ p ≠ "" ∧
      env.regexMatch s p = some m ∧
      env.pathExists (pyReplace p m rep) = true ∧
      ((o = none ∧ calls = [] ∧ pyReplace p m rep = p) ∨
       (o = some ⟨n, p, pyReplace p m rep⟩ ∧ pyReplace p m rep ≠ p ∧
        calls = [⟨pyReplace p m rep, n,
                  env.fileLoadReference (pyReplace p m rep) n⟩])) := by
  unfold repath_reference at h
  cases hq : env.referenceQuery n with
  | none => rw [hq] at h; dsimp only at h; cases h
  | some p =>
    rw [hq] at h; dsimp only at h
    by_cases hp : p = ""
    · rw [if_pos hp] at h; cases h
    · rw [if_neg hp] at h
      cases hm : env.regexMatch s p with
      | none => rw [hm] at h; dsimp only at h; cases h
      | some m =>
        rw [hm] at h; dsimp only at h
        refine ⟨p, m, rfl, hp, hm, ?_⟩
        by_cases hex : env.pathExists (pyReplace p m rep) = true
        · rw [if_pos hex] at h
          refine ⟨hex, ?_⟩
          by_cases hwu : (⟨n, p, pyReplace p m rep⟩ : RepathedReference).was_updated = true
          · rw [if_pos hwu] at h
            injection h with h1
            injection h1 with ho hc
            right
            refine ⟨ho.symm, ?_, hc.symm⟩
            simp [RepathedReference.was_updated] at hwu
            exact fun hh => hwu hh.symm
          · rw [if_neg hwu] at h
            injection h with h1
            injection h1 with ho hc
            left
            refine ⟨ho.symm, hc.symm, ?_⟩
            simp [RepathedReference.was_updated] at hwu
            exact hwu.symm
        · rw [if_neg hex] at h; cases h

/-- The batch loop collects exactly the truthy per-reference results (in order), visits every reference, and concatenates the per-reference reload calls. -/
theorem batch_foldl_spec (env : MayaEnv) (search replace : String) :
    ∀ (refs : List String) (acc : BatchResult),
      refs.foldl (batch_step env search replace) acc =
        ⟨acc.repathed ++ refs.filterMap (repath_collect env search replace),
         acc.attempted ++ refs,
         acc.reloads ++ (refs.map (repath_calls env search replace)).flatten⟩ := by
  intro refs
  induction refs with
  | nil => intro acc; simp
  | cons r rs ih =>
    intro acc
    rw [List.foldl_cons, ih]
    unfold batch_step repath_collect repath_calls
    cases hr : repath_reference env r search replace with
    | error e => simp [hr]
    | ok pair =>
      obtain ⟨o, calls⟩ := pair
      cases o with
      | none => simp [hr]
      | some x => simp [hr]

/-- Closed form of `open_and_repath_references` in terms of `get_references`, `repath_collect` and `repath_calls`. -/
theorem open_and_repath_spec (env : MayaEnv) (f search replace : String) :
    open_and_repath_references env f search replace =
      ⟨(get_references env).filterMap (repath_collect env search replace),
       get_references env,
       ((get_references env).map (repath_calls env search replace)).flatten⟩ := by
  unfold open_and_repath_references
  by_cases he : (get_references env).isEmpty
  · rw [List.isEmpty_iff] at he
    simp [he]
  · rw [if_neg he, batch_foldl_spec]
    simp


/-! ## Claims -/


/-- C3 counterexample: on current path `/a/b/a/c` with matched substring `/a` and replacement `/x`, the code produces `/x/b/x/c` (Python `str.replace` replaces every occurrence of the matched substring), not the claim's `/x/b/a/c` in which the rest of the path is left unchanged. -/
theorem repath_reference_prefix_only_cex :
    literalMatch "/a" "/a/b/a/c" = some "/a" ∧
    repath_reference envA "refA" "/a" "/x" =
      .ok (some ⟨"refA", "/a/b/a/c", "/x/b/x/c"⟩, [⟨"/x/b/x/c", "refA", true⟩]) ∧
    replaceLeadOnly "/a/b/a/c" "/a" "/x" = "/x/b/a/c" ∧
    "/x/b/x/c" ≠ "/x/b/a/c" :=
  ⟨rfl, rfl, rfl, by decide⟩

/-- C3 (amended): in pattern mode the candidate path is formed by matching the search pattern against the start of the current path and replacing every leftmost non-overlapping occurrence of the matched substring with the literal replacement; when the matched substring is a leading segment that occurs nowhere else in the path, this coincides with replacing the start and leaving the rest unchanged. -/
theorem repath_reference_replaces_all_occurrences (env : MayaEnv)
    (n s rep p m : String)
    (hq : env.referenceQuery n = some p) (hp : p ≠ "")
    (hm : env.regexMatch s p = some m)
    (hex : env.pathExists (pyReplace p m rep) = true) :
    (pyReplace p m rep ≠ p →
      repath_reference env n s rep =
        .ok (some ⟨n, p, pyReplace p m rep⟩,
             [⟨pyReplace p m rep, n,
               env.fileLoadReference (pyReplace p m rep) n⟩])) ∧
    (startsWithL m.data p.data = true → m.data ≠ [] →
      containsL m.data (p.data.drop m.data.length) = false →
      pyReplace p m rep = replaceLeadOnly p m rep) := by
  constructor
  · intro hne
    exact repath_updates env n s rep p m hq hp hm hex hne
  · intro hsw hmne hnc
    obtain ⟨t, ht⟩ := (startsWithL_iff _ _).mp hsw
    unfold pyReplace replaceLeadOnly
    rw [if_neg hmne, ht, List.drop_left, listReplace_step _ _ _ hmne,
        listReplace_of_not_contains _ _ _ (by rwa [ht, List.drop_left] at hnc)]

/-- C1: whenever `repath_reference` returns normally, any result object's new path passed the disk-existence check, every reload call issued targets such a confirmed path, and a candidate that fails the existence check raises `pathNotFound` instead. -/
theorem repath_reference_never_commits_missing_path (env : MayaEnv)
    (n s rep : String) :
    (∀ o calls, repath_reference env n s rep = .ok (o, calls) →
      (∀ res, o = some res → env.pathExists res.new_path = true) ∧
      (∀ c ∈ calls, env.pathExists c.path = true)) ∧
    (∀ p m, env.referenceQuery n = some p → p ≠ "" →
      env.regexMatch s p = some m →
      env.pathExists (pyReplace p m rep) = false →
      repath_reference env n s rep =
        .error (.pathNotFound (pyReplace p m rep))) := by
  constructor
  · intro o calls h
    obtain ⟨p, m, hq, hp, hm, hex, hcase⟩ := repath_ok_inv env n s rep o calls h
    rcases hcase with ⟨ho, hc, -⟩ | ⟨ho, -, hc⟩
    · subst ho; subst hc
      refine ⟨fun res hres => ?_, fun c hc => ?_⟩
      · cases hres
      · cases hc
    · subst ho; subst hc
      refine ⟨fun res hres => ?_, fun c hc => ?_⟩
      · injection hres with hres; subst hres; exact hex
      · rcases List.mem_singleton.mp hc with rfl; exact hex
  · intro p m hq hp hm hex
    exact repath_notfound env n s rep p m hq hp hm hex

/-- Witness for C1 at a concrete environment in which no path exists on disk. -/
theorem repath_reference_never_commits_missing_path_witness :
    repath_reference envC "refC" "/a/b" "/a/b" = .error (.pathNotFound "/a/b") :=
  (repath_reference_never_commits_missing_path envC "refC" "/a/b" "/a/b").2
    "/a/b" "/a/b" rfl (by decide) rfl rfl

/-- C2: the batch orchestrator visits every enumerated reference, its returned list is exactly the in-order collection of the truthy per-reference results, and a reference whose repathing raises contributes no result; the orchestrator is a total function, so it always terminates with that list. -/
theorem open_and_repath_references_isolates_failures (env : MayaEnv)
    (f s rep : String) :
    (open_and_repath_references env f s rep).attempted = get_references env ∧
    (open_and_repath_references env f s rep).repathed =
      (get_references env).filterMap (repath_collect env s rep) ∧
    (∀ ref e, repath_reference env ref s rep = .error e →
      repath_collect env s rep ref = none) := by
  refine ⟨?_, ?_, ?_⟩
  · rw [open_and_repath_spec]
  · rw [open_and_repath_spec]
  · intro ref e he
    unfold repath_collect
    rw [he]

/-- C4 counterexample: search `/old`, replacement `/new`, initial path `/old/a`; the first run succeeds and updates the recorded path to `/new/a`, but the second run raises `patternMismatch` (the pattern no longer matches the updated path) instead of yielding the no-change outcome. -/
theorem repath_twice_not_noop_cex :
    repath_reference envB1 "refB" "/old" "/new" =
      .ok (some ⟨"refB", "/old/a", "/new/a"⟩, [⟨"/new/a", "refB", true⟩]) ∧
    envB2.referenceQuery "refB" = some "/new/a" ∧
    repath_reference envB2 "refB" "/old" "/new" =
      .error (.patternMismatch "/old" "/new/a") :=
  ⟨rfl, rfl, rfl⟩

/-- C4 (amended): if the first run succeeds and updates the recorded path, then a second run with the same rule yields the no-change outcome, provided the recorded path was updated to the first run's (non-empty) new path, the disk state is unchanged, and the search pattern still matches the updated path with a matched substring whose substitution leaves the path fixed. -/
theorem repath_twice_noop_of_stable_rule (env env2 : MayaEnv)
    (n s rep : String) (r : RepathedReference) (calls : List ReloadCall)
    (m2 : String)
    (h1 : repath_reference env n s rep = .ok (some r, calls))
    (hq2 : env2.referenceQuery n = some r.new_path)
    (hne : r.new_path ≠ "")
    (hm2 : env2.regexMatch s r.new_path = some m2)
    (hfix : pyReplace r.new_path m2 rep = r.new_path)
    (hex2 : env2.pathExists = env.pathExists) :
    repath_reference env2 n s rep = .ok (none, []) := by
  obtain ⟨p, m, hq, hp, hm, hex, hcase⟩ :=
    repath_ok_inv env n s rep (some r) calls h1
  have hrnew : r.new_path = pyReplace p m rep := by
    rcases hcase with ⟨ho, -, -⟩ | ⟨ho, -, -⟩
    · cases ho
    · injection ho with ho; subst ho; rfl
  apply repath_noop env2 n s rep r.new_path m2 hq2 hne hm2 _ hfix
  rw [hfix, hex2, hrnew]
  exact hex

/-- Witness for C4 (amended): a rule matching both the old and the new leading segment, run on `/old/a` and then on the updated `/new/a`. -/
theorem repath_twice_noop_of_stable_rule_witness :
    repath_reference envD1 "refD" "R" "/new" =
      .ok (some ⟨"refD", "/old/a", "/new/a"⟩, [⟨"/new/a", "refD", true⟩]) ∧
    repath_reference envD2 "refD" "R" "/new" = .ok (none, []) :=
  ⟨rfl,
   repath_twice_noop_of_stable_rule envD1 envD2 "refD" "R" "/new"
     ⟨"refD", "/old/a", "/new/a"⟩ [⟨"/new/a", "refD", true⟩] "/new"
     rfl rfl (by decide) rfl rfl rfl⟩

/-- C5 counterexample: on a reference whose path `/a/b` is left unchanged by the substitution but does not exist on disk, `repath_reference` raises `pathNotFound` (the existence check precedes the no-change check) instead of returning the no-op signal. -/
theorem repath_noop_requires_existence_cex :
    pyReplace "/a/b" "/a/b" "/a/b" = "/a/b" ∧
    repath_reference envC "refC" "/a/b" "/a/b" =
      .error (.pathNotFound "/a/b") :=
  ⟨rfl, rfl⟩

/-- C5 (amended): for every reference whose current path exists on disk and is left unchanged by the substitution rule, `repath_reference` returns the no-op signal `none` (distinct from both a change result and an error) and issues no reload call. -/
theorem repath_reference_noop_when_unchanged (env : MayaEnv)
    (n s rep p m : String)
    (hq : env.referenceQuery n = some p) (hp : p ≠ "")
    (hm : env.regexMatch s p = some m)
    (hfix : pyReplace p m rep = p)
    (hex : env.pathExists p = true) :
    repath_reference env n s rep = .ok (none, []) := by
  apply repath_noop env n s rep p m hq hp hm _ hfix
  rw [hfix]
  exact hex

/-- Witness for C5 (amended) at a concrete environment in which the rule rewrites the whole path to itself. -/
theorem repath_reference_noop_when_unchanged_witness :
    repath_reference envA "refA" "/a/b/a/c" "/a/b/a/c" = .ok (none, []) :=
  repath_reference_noop_when_unchanged envA "refA" "/a/b/a/c" "/a/b/a/c"
    "/a/b/a/c" "/a/b/a/c" rfl (by decide) rfl rfl rfl

/-- C6: a reference whose current path is not matched by the search pattern makes the single-reference operation fail with `patternMismatch`; in a batch, every reference is still visited and no collected result belongs to the mismatching reference. -/
theorem pattern_mismatch_skips_reference (env : MayaEnv)
    (n f s rep p : String)
    (hq : env.referenceQuery n = some p) (hp : p ≠ "")
    (hm : env.regexMatch s p = none) :
    repath_reference env n s rep = .error (.patternMismatch s p) ∧
    (open_and_repath_references env f s rep).attempted = get_references env ∧
    (∀ res ∈ (open_and_repath_references env f s rep).repathed,
      res.node_name ≠ n) := by
  have herr := repath_mismatch env n s rep p hq hp hm
  refine ⟨herr, ?_, ?_⟩
  · rw [open_and_repath_spec]
  · rw [open_and_repath_spec]
    intro res hres
    simp only [List.mem_filterMap] at hres
    obtain ⟨a, ha, hcol⟩ := hres
    unfold repath_collect at hcol
    intro hcontra
    cases hrr : repath_reference env a s rep with
    | error e => rw [hrr] at hcol; cases hcol
    | ok pair =>
      obtain ⟨o, calls⟩ := pair
      cases o with
      | none => rw [hrr] at hcol; cases hcol
      | some x =>
        rw [hrr] at hcol
        injection hcol with hcol
        subst hcol
        obtain ⟨p2, m2, hq2, hp2, hm2, hex2, hcase⟩ :=
          repath_ok_inv env a s rep (some x) calls hrr
        have hname : x.node_name = a := by
          rcases hcase with ⟨ho, -, -⟩ | ⟨ho, -, -⟩
          · cases ho
          · injection ho with ho; subst ho; rfl
        rw [hname] at hcontra
        subst hcontra
        rw [herr] at hrr
        cases hrr

/-- Witness for C6: a two-reference batch in which one reference mismatches; the other is still repathed and is the only collected result. -/
theorem pattern_mismatch_skips_reference_witness :
    (repath_reference envE "refBad" "/old" "/new" =
      .error (.patternMismatch "/old" "/elsewhere/b") ∧
     (open_and_repath_references envE "scene.ma" "/old" "/new").attempted =
       get_references envE ∧
     (∀ res ∈ (open_and_repath_references envE "scene.ma" "/old" "/new").repathed,
       res.node_name ≠ "refBad")) ∧
    (open_and_repath_references envE "scene.ma" "/old" "/new").repathed =
      [⟨"refOk", "/old/a", "/new/a"⟩] :=
  ⟨pattern_mismatch_skips_reference envE "refBad" "scene.ma" "/old" "/new"
     "/elsewhere/b" rfl (by decide) rfl,
   rfl⟩

/-- C7: when the candidate path exists and differs from the current path, a failing host reload call is absorbed (the call is issued and its failure recorded, nothing propagates) and `repath_reference` still returns the repathing result object. -/
theorem reload_failure_is_nonfatal (env : MayaEnv) (n s rep p m : String)
    (hq : env.referenceQuery n = some p) (hp : p ≠ "")
    (hm : env.regexMatch s p = some m)
    (hex : env.pathExists (pyReplace p m rep) = true)
    (hne : pyReplace p m rep ≠ p)
    (hfail : env.fileLoadReference (pyReplace p m rep) n = false) :
    repath_reference env n s rep =
      .ok (some ⟨n, p, pyReplace p m rep⟩,
           [⟨pyReplace p m rep, n, false⟩]) := by
  have h := repath_updates env n s rep p m hq hp hm hex hne
  rw [hfail] at h
  exact h

/-- Witness for C7 at a concrete environment whose host reload call always fails. -/
theorem reload_failure_is_nonfatal_witness :
    repath_reference envF "refF" "/old" "/new" =
      .ok (some ⟨"refF", "/old/a", "/new/a"⟩, [⟨"/new/a", "refF", false⟩]) :=
  reload_failure_is_nonfatal envF "refF" "/old" "/new" "/old/a" "/old"
    rfl (by decide) rfl rfl (by decide) rfl

/-- C8: for every scene whose reference enumeration (after excluding the pseudo-nodes) is empty, the batch orchestrator returns the empty collection, invokes no repathing and issues no reload; it returns normally, not an error. -/
theorem empty_scene_returns_empty (env : MayaEnv) (f s rep : String)
    (h : get_references env = []) :
    open_and_repath_references env f s rep =
      { repathed := [], attempted := [], reloads := [] } := by
  rw [open_and_repath_spec, h]
  rfl

/-- Witness for C8: a scene containing only the two kinds of pseudo-node. -/
theorem empty_scene_returns_empty_witness :
    get_references envG = [] ∧
    open_and_repath_references envG "scene.ma" "/old" "/new" =
      { repathed := [], attempted := [], reloads := [] } :=
  ⟨rfl, empty_scene_returns_empty envG "scene.ma" "/old" "/new" rfl⟩

/-- C9: every `RepathedReference` returned by `repath_reference`, and hence every element of the batch output, satisfies `was_updated`, i.e. its previous and new paths differ; unchanged references never contribute a result. -/
theorem repathed_results_were_updated (env : MayaEnv)
    (n f s rep : String) :
    (∀ res calls, repath_reference env n s rep = .ok (some res, calls) →
      res.was_updated = true) ∧
    (∀ res ∈ (open_and_repath_references env f s rep).repathed,
      res.was_updated = true) := by
  have key : ∀ ref (res : RepathedReference) calls,
      repath_reference env ref s rep = .ok (some res, calls) →
      res.was_updated = true := by
    intro ref res calls h
    obtain ⟨p, m, hq, hp, hm, hex, hcase⟩ :=
      repath_ok_inv env ref s rep (some res) calls h
    rcases hcase with ⟨ho, -, -⟩ | ⟨ho, hne, -⟩
    · cases ho
    · injection ho with ho
      subst ho
      simp only [RepathedReference.was_updated, Bool.not_eq_true']
      rw [beq_eq_false_iff_ne]
      exact fun hh => hne hh.symm
  constructor
  · exact key n
  · rw [open_and_repath_spec]
    intro res hres
    simp only [List.mem_filterMap] at hres
    obtain ⟨a, ha, hcol⟩ := hres
    unfold repath_collect at hcol
    cases hrr : repath_reference env a s rep with
    | error e => rw [hrr] at hcol; cases hcol
    | ok pair =>
      obtain ⟨o, calls⟩ := pair
      cases o with
      | none => rw [hrr] at hcol; cases hcol
      | some x =>
        rw [hrr] at hcol
        injection hcol with hcol
        subst hcol
        exact key a x calls hrr

/-- Witness for C9 at a concrete successful repathing. -/
theorem repathed_results_were_updated_witness :
    (⟨"refA", "/a/b/a/c", "/x/b/x/c"⟩ : RepathedReference).was_updated = true :=
  (repathed_results_were_updated envA "refA" "scene.ma" "/a" "/x").1
    ⟨"refA", "/a/b/a/c", "/x/b/x/c"⟩ [⟨"/x/b/x/c", "refA", true⟩] rfl

/-- C10: the reference enumerator returns a sublist of the host's native listing (other nodes unmodified, in order), and a node is kept exactly when its name contains neither `sharedReferenceNode` nor `_UNKNOWN_REF_NODE_` as a substring anywhere. -/
theorem get_references_excludes_substring_matches (env : MayaEnv) :
    List.Sublist (get_references env) env.lsReferences ∧
    ∀ n, n ∈ get_references env ↔
      (n ∈ env.lsReferences ∧
       ¬ ContainsSubstring "sharedReferenceNode".data n.data ∧
       ¬ ContainsSubstring "_UNKNOWN_REF_NODE_".data n.data) := by
  constructor
  · exact List.filter_sublist _
  · intro n
    unfold get_references
    rw [List.mem_filter]
    unfold is_ref_valid strContains
    rw [Bool.and_eq_true, Bool.not_eq_true', Bool.not_eq_true']
    constructor
    · rintro ⟨h1, h2, h3⟩
      refine ⟨h1, fun hc => ?_, fun hc => ?_⟩
      · rw [(containsL_iff _ _).mpr hc] at h2; cases h2
      · rw [(containsL_iff _ _).mpr hc] at h3; cases h3
    · rintro ⟨h1, h2, h3⟩
      refine ⟨h1, ?_, ?_⟩
      · cases hb : containsL "sharedReferenceNode".data n.data with
        | false => rfl
        | true => exact absurd ((containsL_iff _ _).mp hb) h2
      · cases hb : containsL "_UNKNOWN_REF_NODE_".data n.data with
        | false => rfl
        | true => exact absurd ((containsL_iff _ _).mp hb) h3

/-- Witness for C10: a listing with one good node and one node for each excluded substring, strictly containing it. -/
theorem get_references_excludes_substring_matches_witness :
    "goodRef" ∈ get_references envH ∧ get_references envH = ["goodRef"] :=
  ⟨((get_references_excludes_substring_matches envH).2 "goodRef").mpr
    ⟨by decide,
     fun hc => absurd ((containsL_iff _ _).mpr hc) (by decide),
     fun hc => absurd ((containsL_iff _ _).mpr hc) (by decide)⟩,
   rfl⟩

/-- Witness for C2 at a concrete environment in which one of two references fails with a pattern mismatch. -/
theorem open_and_repath_references_isolates_failures_witness :
    repath_collect envE "/old" "/new" "refBad" = none ∧
    (open_and_repath_references envE "scene.ma" "/old" "/new").attempted =
      get_references envE :=
  ⟨(open_and_repath_references_isolates_failures envE "scene.ma" "/old" "/new").2.2
     "refBad" (.patternMismatch "/old" "/elsewhere/b") rfl,
   (open_and_repath_references_isolates_failures envE "scene.ma" "/old" "/new").1⟩

/-- Witness for C3 (amended) at a concrete environment: path `/old/a`, matched substring `/old`, replacement `/new`. -/
theorem repath_reference_replaces_all_occurrences_witness :
    repath_reference envB1 "refB" "/old" "/new" =
      .ok (some ⟨"refB", "/old/a", "/new/a"⟩, [⟨"/new/a", "refB", true⟩]) ∧
    pyReplace "/old/a" "/old" "/new" = replaceLeadOnly "/old/a" "/old" "/new" :=
  ⟨(repath_reference_replaces_all_occurrences envB1 "refB" "/old" "/new"
      "/old/a" "/old" rfl (by decide) rfl rfl).1 (by decide),
   (repath_reference_replaces_all_occurrences envB1 "refB" "/old" "/new"
      "/old/a" "/old" rfl (by decide) rfl rfl).2 rfl (by decide) rfl⟩
